import Mathlib

set_option maxHeartbeats 1000000
set_option maxRecDepth 4000

/-!
Verification of the core of the `infa-xml-2-excel` converter
(`src/app/parser.py`) against its specification.

The Python code is shallowly embedded: dataframe cells (strings or Python
`None`) become `Option String`, dataframes become lists of rows, the dict of
tables becomes an association list, and the XML tree becomes an inductive
type.  Byte input that is empty or fails `ET.fromstring` is modelled as
`none : Option XmlElem`, so the parse functions are total Lean functions.
-/

namespace Infa

/-! ### Python value helpers -/

/-- A dataframe cell or attribute value: `none` models Python `None`. -/
abbrev Cell := Option String

/-- Python `str(x)` applied to a string-or-`None` value; `None` renders as
the five characters `None`, just as in an f-string. -/
def pyStr : Cell → String
  | none => "None"
  | some s => s

/-- Python truthiness of a string: only the empty string is falsy. -/
def pyTruthyStr (s : String) : Bool := !(s = "")

/-- Python truthiness of a string-or-`None` value. -/
def pyTruthy : Cell → Bool
  | none => false
  | some s => pyTruthyStr s

/-- Python `x or d` for a string-or-`None` `x` with a string default `d`. -/
def pyOr (c : Cell) (d : String) : String :=
  match c with
  | none => d
  | some s => if s = "" then d else s

/-- Python `s.isdigit()` on ASCII data: nonempty and every character is one
of the decimal digits `0`-`9`. -/
def pyIsdigit (s : String) : Bool := !s.isEmpty && s.data.all Char.isDigit

/-- Python `s.upper()` on ASCII data (character-by-character uppercasing). -/
def pyUpper (s : String) : String := String.mk (s.data.map Char.toUpper)

/-- Python `s.lower()` on ASCII data (character-by-character lowercasing). -/
def pyLower (s : String) : String := String.mk (s.data.map Char.toLower)

/-- Python `s.startswith(pre)`. -/
def pyStartsWith (s pre : String) : Bool := pre.data.isPrefixOf s.data

theorem pyIsdigit_ne_empty {s : String} (h : pyIsdigit s = true) : ¬(s = "") := by
  intro he
  subst he
  simp [pyIsdigit, String.isEmpty] at h

/-! ### Dialect type mapper (`map_type_for_db`, src/app/parser.py lines 242-356) -/

/-- The `_num` helper closed over `p` and `s` (src/app/parser.py lines 251-254):
`(p, s)` when both are digit strings, `(p, None)` when only `p` is, and
`(None, None)` otherwise. -/
def numPS (p s : String) : Option String × Option String :=
  if pyIsdigit p then
    (if pyIsdigit s then (some p, some s) else (some p, none))
  else (none, none)

/-- The `oracle` arm of `map_type_for_db` (src/app/parser.py lines 258-274),
as a function of the computed `dt`, `p`, `s`. -/
def oracleBranch (dt p s : String) : String :=
  if dt = "VARCHAR" ∨ dt = "VARCHAR2" then
    (if pyIsdigit p then "VARCHAR2(" ++ p ++ ")" else "VARCHAR2(255)")
  else if dt = "CHAR" then
    (if pyIsdigit p then "CHAR(" ++ p ++ ")" else "CHAR(1)")
  else if dt = "NUMBER" ∨ dt = "DECIMAL" ∨ dt = "NUMERIC" ∨ dt = "INTEGER" ∨
      dt = "INT" ∨ dt = "SMALLINT" then
    let pp := (numPS p s).1
    let ss := (numPS p s).2
    if pyTruthy pp && ss.isSome then "NUMBER(" ++ pyStr pp ++ "," ++ pyStr ss ++ ")"
    else if pyTruthy pp then "NUMBER(" ++ pyStr pp ++ ")"
    else "NUMBER"
  else if dt = "DATE" then "DATE"
  else if pyStartsWith dt "TIMESTAMP" then "TIMESTAMP"
  else "VARCHAR2(255)"

/-- The `sqlserver` arm of `map_type_for_db` (src/app/parser.py lines 276-294). -/
def sqlserverBranch (dt p s : String) : String :=
  if dt = "VARCHAR" ∨ dt = "VARCHAR2" ∨ dt = "NVARCHAR" then
    (if pyIsdigit p then "VARCHAR(" ++ p ++ ")" else "VARCHAR(255)")
  else if dt = "CHAR" then
    (if pyIsdigit p then "CHAR(" ++ p ++ ")" else "CHAR(1)")
  else if dt = "NUMBER" ∨ dt = "DECIMAL" ∨ dt = "NUMERIC" then
    let pp := (numPS p s).1
    let ss := (numPS p s).2
    if pyTruthy pp && ss.isSome then "DECIMAL(" ++ pyStr pp ++ "," ++ pyStr ss ++ ")"
    else if pyTruthy pp then "DECIMAL(" ++ pyStr pp ++ ")"
    else "DECIMAL(38,10)"
  else if dt = "INTEGER" ∨ dt = "INT" ∨ dt = "SMALLINT" ∨ dt = "BIGINT" then "INT"
  else if dt = "DATE" then "DATE"
  else if pyStartsWith dt "TIMESTAMP" ∨ dt = "DATETIME" ∨ dt = "SMALLDATETIME" then "DATETIME"
  else "VARCHAR(255)"

/-- The `postgres` arm of `map_type_for_db` (src/app/parser.py lines 296-314). -/
def postgresBranch (dt p s : String) : String :=
  if dt = "VARCHAR" ∨ dt = "VARCHAR2" then
    (if pyIsdigit p then "VARCHAR(" ++ p ++ ")" else "VARCHAR(255)")
  else if dt = "CHAR" then
    (if pyIsdigit p then "CHAR(" ++ p ++ ")" else "CHAR(1)")
  else if dt = "NUMBER" ∨ dt = "DECIMAL" ∨ dt = "NUMERIC" then
    let pp := (numPS p s).1
    let ss := (numPS p s).2
    if pyTruthy pp && ss.isSome then "NUMERIC(" ++ pyStr pp ++ "," ++ pyStr ss ++ ")"
    else if pyTruthy pp then "NUMERIC(" ++ pyStr pp ++ ")"
    else "NUMERIC"
  else if dt = "INTEGER" ∨ dt = "INT" ∨ dt = "SMALLINT" ∨ dt = "BIGINT" then "INTEGER"
  else if dt = "DATE" then "DATE"
  else if pyStartsWith dt "TIMESTAMP" then "TIMESTAMP"
  else "VARCHAR(255)"

/-- The `mysql` arm of `map_type_for_db` (src/app/parser.py lines 316-334). -/
def mysqlBranch (dt p s : String) : String :=
  if dt = "VARCHAR" ∨ dt = "VARCHAR2" then
    (if pyIsdigit p then "VARCHAR(" ++ p ++ ")" else "VARCHAR(255)")
  else if dt = "CHAR" then
    (if pyIsdigit p then "CHAR(" ++ p ++ ")" else "CHAR(1)")
  else if dt = "NUMBER" ∨ dt = "DECIMAL" ∨ dt = "NUMERIC" then
    let pp := (numPS p s).1
    let ss := (numPS p s).2
    if pyTruthy pp && ss.isSome then "DECIMAL(" ++ pyStr pp ++ "," ++ pyStr ss ++ ")"
    else if pyTruthy pp then "DECIMAL(" ++ pyStr pp ++ ")"
    else "DECIMAL(38,10)"
  else if dt = "INTEGER" ∨ dt = "INT" ∨ dt = "SMALLINT" ∨ dt = "BIGINT" then "INT"
  else if dt = "DATE" then "DATE"
  else if pyStartsWith dt "TIMESTAMP" ∨ dt = "DATETIME" then "DATETIME"
  else "VARCHAR(255)"

/-- The `snowflake` arm of `map_type_for_db` (src/app/parser.py lines 336-354). -/
def snowflakeBranch (dt p s : String) : String :=
  if dt = "VARCHAR" ∨ dt = "VARCHAR2" ∨ dt = "STRING" ∨ dt = "TEXT" then
    (if pyIsdigit p then "VARCHAR(" ++ p ++ ")" else "VARCHAR")
  else if dt = "CHAR" then
    (if pyIsdigit p then "CHAR(" ++ p ++ ")" else "CHAR(1)")
  else if dt = "NUMBER" ∨ dt = "DECIMAL" ∨ dt = "NUMERIC" then
    let pp := (numPS p s).1
    let ss := (numPS p s).2
    if pyTruthy pp && ss.isSome then "NUMBER(" ++ pyStr pp ++ "," ++ pyStr ss ++ ")"
    else if pyTruthy pp then "NUMBER(" ++ pyStr pp ++ ")"
    else "NUMBER"
  else if dt = "INTEGER" ∨ dt = "INT" ∨ dt = "SMALLINT" ∨ dt = "BIGINT" then "NUMBER(38,0)"
  else if dt = "DATE" then "DATE"
  else if pyStartsWith dt "TIMESTAMP" then "TIMESTAMP_NTZ"
  else "VARCHAR"

/-- Translation of `map_type_for_db` (src/app/parser.py lines 242-356).
`dt = (str(datatype) or "").upper()` — the `or ""` only fires when
`str(datatype)` is already empty, so it is the identity; `db = (db or
"oracle").lower()`.  Each dialect arm is transcribed in source order into
its own branch function above. -/
def map_type_for_db (datatype precision scale : Cell) (db : Cell) : String :=
  let dt := pyUpper (pyStr datatype)
  let p := precision.getD ""
  let s := scale.getD ""
  let dbL := pyLower (pyOr db "oracle")
  if dbL = "oracle" then oracleBranch dt p s
  else if dbL = "sqlserver" then sqlserverBranch dt p s
  else if dbL = "postgres" then postgresBranch dt p s
  else if dbL = "mysql" then mysqlBranch dt p s
  else if dbL = "snowflake" then snowflakeBranch dt p s
  else "VARCHAR(255)"

/-- The closed enumeration of dialects recognized by `map_type_for_db`. -/
def supportedDialects : List String := ["oracle", "sqlserver", "postgres", "mysql", "snowflake"]

theorem append_ne_empty {a : String} (b : String) (h : ¬(a = "")) : ¬(a ++ b = "") := by
  intro hc
  apply h
  cases a with
  | mk da =>
    cases b with
    | mk db =>
      have hd : da ++ db = [] := congrArg String.data hc
      have hda : da = [] := (List.append_eq_nil.mp hd).1
      rw [hda]


theorem oracleBranch_ne_empty (dt p s : String) : ¬(oracleBranch dt p s = "") := by
  simp only [oracleBranch]
  intro hc
  repeat' split at hc
  all_goals
    first
    | simp at hc
    | exact absurd hc (by repeat' apply append_ne_empty
                          decide)

theorem sqlserverBranch_ne_empty (dt p s : String) : ¬(sqlserverBranch dt p s = "") := by
  simp only [sqlserverBranch]
  intro hc
  repeat' split at hc
  all_goals
    first
    | simp at hc
    | exact absurd hc (by repeat' apply append_ne_empty
                          decide)

theorem postgresBranch_ne_empty (dt p s : String) : ¬(postgresBranch dt p s = "") := by
  simp only [postgresBranch]
  intro hc
  repeat' split at hc
  all_goals
    first
    | simp at hc
    | exact absurd hc (by repeat' apply append_ne_empty
                          decide)

theorem mysqlBranch_ne_empty (dt p s : String) : ¬(mysqlBranch dt p s = "") := by
  simp only [mysqlBranch]
  intro hc
  repeat' split at hc
  all_goals
    first
    | simp at hc
    | exact absurd hc (by repeat' apply append_ne_empty
                          decide)

theorem snowflakeBranch_ne_empty (dt p s : String) : ¬(snowflakeBranch dt p s = "") := by
  simp only [snowflakeBranch]
  intro hc
  repeat' split at hc
  all_goals
    first
    | simp at hc
    | exact absurd hc (by repeat' apply append_ne_empty
                          decide)

theorem length_pos_of_ne_empty {s : String} (h : ¬(s = "")) : 0 < s.length := by
  cases s with
  | mk d =>
    cases d with
    | nil => exact absurd rfl h
    | cons c cs => simp [String.length]

theorem map_type_for_db_ne_empty (datatype precision scale db : Cell) :
    ¬(map_type_for_db datatype precision scale db = "") := by
  simp only [map_type_for_db]
  intro hc
  repeat' split at hc
  all_goals
    first
    | simp at hc
    | exact oracleBranch_ne_empty _ _ _ hc
    | exact sqlserverBranch_ne_empty _ _ _ hc
    | exact postgresBranch_ne_empty _ _ _ hc
    | exact mysqlBranch_ne_empty _ _ _ hc
    | exact snowflakeBranch_ne_empty _ _ _ hc

/-- C10: `map_type_for_db` is total: for every combination of datatype,
precision, scale (including `None` and arbitrary strings) and every dialect
value (including `None` and the empty string) it returns a non-empty string
type literal.  (In the embedding the function is a total Lean function,
which is the never-raises part of the claim; this theorem states that every
branch returns a string of positive length.) -/
theorem c10_map_type_total (datatype precision scale db : Cell) :
    0 < (map_type_for_db datatype precision scale db).length :=
  length_pos_of_ne_empty (map_type_for_db_ne_empty datatype precision scale db)

/-- C4 counterexample: with the out-of-enumeration dialect `db2`, a
`VARCHAR` of precision 10 maps to the terminal fallback `VARCHAR(255)`,
whereas dialect `oracle` maps it to `VARCHAR2(10)`: an unrecognized dialect
is NOT equivalent to the first-listed dialect. -/
theorem c4_counterexample :
    map_type_for_db (some "VARCHAR") (some "10") (some "0") (some "db2") = "VARCHAR(255)"
  ∧ map_type_for_db (some "VARCHAR") (some "10") (some "0") (some "oracle") = "VARCHAR2(10)"
  ∧ ¬(map_type_for_db (some "VARCHAR") (some "10") (some "0") (some "db2")
      = map_type_for_db (some "VARCHAR") (some "10") (some "0") (some "oracle")) :=
  ⟨by decide, by decide, by decide⟩

/-- C4 amended: a dialect value whose lowercased `or`-defaulted form lies
outside the closed enumeration yields the constant terminal fallback
`VARCHAR(255)` for every datatype/precision/scale; only a falsy dialect
(`None` or the empty string) behaves like the first-listed dialect
`oracle`. -/
theorem c4_amended (datatype precision scale : Cell) (db : Cell) :
    (pyLower (pyOr db "oracle") ∉ supportedDialects →
        map_type_for_db datatype precision scale db = "VARCHAR(255)")
  ∧ (pyTruthy db = false →
        map_type_for_db datatype precision scale db
          = map_type_for_db datatype precision scale (some "oracle")) := by
  constructor
  · intro hmem
    simp only [supportedDialects, List.mem_cons, List.not_mem_nil, or_false, not_or] at hmem
    obtain ⟨h1, h2, h3, h4, h5⟩ := hmem
    simp only [map_type_for_db, if_neg h1, if_neg h2, if_neg h3, if_neg h4, if_neg h5]
  · intro hf
    cases db with
    | none => rfl
    | some s =>
      have hs : s = "" := by
        by_contra hne
        simp [pyTruthy, pyTruthyStr, hne] at hf
      subst hs
      rfl

/-- Closed-input witness for `c4_amended`. -/
theorem c4_amended_witness :
    map_type_for_db (some "NUMBER") (some "5") (some "2") (some "db2") = "VARCHAR(255)"
  ∧ map_type_for_db (some "NUMBER") (some "5") (some "2") none
      = map_type_for_db (some "NUMBER") (some "5") (some "2") (some "oracle") :=
  ⟨(c4_amended (some "NUMBER") (some "5") (some "2") (some "db2")).1 (by decide),
   (c4_amended (some "NUMBER") (some "5") (some "2") none).2 (by decide)⟩

/-- Decimal-family datatypes per dialect, read off the membership tuples
guarding the numeric branch of each dialect arm (`oracle` also routes the
integer family through its `NUMBER` branch). -/
def decimalFamily (db : String) : List String :=
  if db = "oracle" then ["NUMBER", "DECIMAL", "NUMERIC", "INTEGER", "INT", "SMALLINT"]
  else ["NUMBER", "DECIMAL", "NUMERIC"]

/-- The decimal kind each dialect branch emits. -/
def decimalKind (db : String) : String :=
  if db = "oracle" ∨ db = "snowflake" then "NUMBER"
  else if db = "postgres" then "NUMERIC"
  else "DECIMAL"

/-- The default numeric literal each dialect branch falls back to. -/
def decimalDefault (db : String) : String :=
  if db = "oracle" ∨ db = "snowflake" then "NUMBER"
  else if db = "postgres" then "NUMERIC"
  else "DECIMAL(38,10)"

/-- Shared shape of the numeric formatting performed by every dialect arm:
`kind(p,s)` when both digit strings are valid, `kind(p)` when only the
precision is, and the dialect default otherwise. -/
def numFmt (kind dflt p s : String) : String :=
  if pyIsdigit p then
    (if pyIsdigit s then kind ++ "(" ++ p ++ "," ++ s ++ ")" else kind ++ "(" ++ p ++ ")")
  else dflt

theorem pyTruthyStr_of_isdigit {s : String} (h : pyIsdigit s = true) : pyTruthyStr s = true := by
  have hne := pyIsdigit_ne_empty h
  simp [pyTruthyStr, hne]

theorem oracleBranch_numeric (dt p s : String)
    (h : dt = "NUMBER" ∨ dt = "DECIMAL" ∨ dt = "NUMERIC" ∨ dt = "INTEGER" ∨
      dt = "INT" ∨ dt = "SMALLINT") :
    oracleBranch dt p s = numFmt "NUMBER" "NUMBER" p s := by
  by_cases hp : pyIsdigit p = true <;> by_cases hs : pyIsdigit s = true <;>
    rcases h with h | h | h | h | h | h <;>
      subst h <;>
        simp [oracleBranch, numFmt, numPS, hp, hs, pyTruthy, pyStr, pyTruthyStr_of_isdigit]

theorem sqlserverBranch_numeric (dt p s : String)
    (h : dt = "NUMBER" ∨ dt = "DECIMAL" ∨ dt = "NUMERIC") :
    sqlserverBranch dt p s = numFmt "DECIMAL" "DECIMAL(38,10)" p s := by
  by_cases hp : pyIsdigit p = true <;> by_cases hs : pyIsdigit s = true <;>
    rcases h with h | h | h <;>
      subst h <;>
        simp [sqlserverBranch, numFmt, numPS, hp, hs, pyTruthy, pyStr, pyTruthyStr_of_isdigit]

theorem postgresBranch_numeric (dt p s : String)
    (h : dt = "NUMBER" ∨ dt = "DECIMAL" ∨ dt = "NUMERIC") :
    postgresBranch dt p s = numFmt "NUMERIC" "NUMERIC" p s := by
  by_cases hp : pyIsdigit p = true <;> by_cases hs : pyIsdigit s = true <;>
    rcases h with h | h | h <;>
      subst h <;>
        simp [postgresBranch, numFmt, numPS, hp, hs, pyTruthy, pyStr, pyTruthyStr_of_isdigit]

theorem mysqlBranch_numeric (dt p s : String)
    (h : dt = "NUMBER" ∨ dt = "DECIMAL" ∨ dt = "NUMERIC") :
    mysqlBranch dt p s = numFmt "DECIMAL" "DECIMAL(38,10)" p s := by
  by_cases hp : pyIsdigit p = true <;> by_cases hs : pyIsdigit s = true <;>
    rcases h with h | h | h <;>
      subst h <;>
        simp [mysqlBranch, numFmt, numPS, hp, hs, pyTruthy, pyStr, pyTruthyStr_of_isdigit]

theorem snowflakeBranch_numeric (dt p s : String)
    (h : dt = "NUMBER" ∨ dt = "DECIMAL" ∨ dt = "NUMERIC") :
    snowflakeBranch dt p s = numFmt "NUMBER" "NUMBER" p s := by
  by_cases hp : pyIsdigit p = true <;> by_cases hs : pyIsdigit s = true <;>
    rcases h with h | h | h <;>
      subst h <;>
        simp [snowflakeBranch, numFmt, numPS, hp, hs, pyTruthy, pyStr, pyTruthyStr_of_isdigit]

/-- C5: for every supported dialect and decimal-family datatype, both
precision and scale all-digits gives `kind(p,s)` with the digit strings
embedded unmodified, precision-only gives `kind(p)`, and a blank, absent or
non-digit precision gives the dialect default. -/
theorem c5_numeric_formatting (db : String) (hdb : db ∈ supportedDialects)
    (datatype precision scale : Cell)
    (hfam : pyUpper (pyStr datatype) ∈ decimalFamily db) :
    map_type_for_db datatype precision scale (some db) =
      (if pyIsdigit (precision.getD "") then
        (if pyIsdigit (scale.getD "") then
          decimalKind db ++ "(" ++ precision.getD "" ++ "," ++ scale.getD "" ++ ")"
        else decimalKind db ++ "(" ++ precision.getD "" ++ ")")
      else decimalDefault db) := by
  fin_cases hdb
  · rw [show map_type_for_db datatype precision scale (some "oracle")
          = oracleBranch (pyUpper (pyStr datatype)) (precision.getD "") (scale.getD "") from by
        simp [map_type_for_db, pyOr, pyLower],
      oracleBranch_numeric _ _ _ (by simpa [decimalFamily] using hfam)]
    simp [numFmt, decimalKind, decimalDefault]
  · rw [show map_type_for_db datatype precision scale (some "sqlserver")
          = sqlserverBranch (pyUpper (pyStr datatype)) (precision.getD "") (scale.getD "") from by
        simp [map_type_for_db, pyOr, pyLower],
      sqlserverBranch_numeric _ _ _ (by simpa [decimalFamily] using hfam)]
    simp [numFmt, decimalKind, decimalDefault]
  · rw [show map_type_for_db datatype precision scale (some "postgres")
          = postgresBranch (pyUpper (pyStr datatype)) (precision.getD "") (scale.getD "") from by
        simp [map_type_for_db, pyOr, pyLower],
      postgresBranch_numeric _ _ _ (by simpa [decimalFamily] using hfam)]
    simp [numFmt, decimalKind, decimalDefault]
  · rw [show map_type_for_db datatype precision scale (some "mysql")
          = mysqlBranch (pyUpper (pyStr datatype)) (precision.getD "") (scale.getD "") from by
        simp [map_type_for_db, pyOr, pyLower],
      mysqlBranch_numeric _ _ _ (by simpa [decimalFamily] using hfam)]
    simp [numFmt, decimalKind, decimalDefault]
  · rw [show map_type_for_db datatype precision scale (some "snowflake")
          = snowflakeBranch (pyUpper (pyStr datatype)) (precision.getD "") (scale.getD "") from by
        simp [map_type_for_db, pyOr, pyLower],
      snowflakeBranch_numeric _ _ _ (by simpa [decimalFamily] using hfam)]
    simp [numFmt, decimalKind, decimalDefault]

/-- Closed-input witness for `c5_numeric_formatting`. -/
theorem c5_numeric_formatting_witness :
    map_type_for_db (some "Decimal") (some "10") (some "2") (some "postgres")
      = "NUMERIC(10,2)" :=
  (c5_numeric_formatting "postgres" (by decide) (some "Decimal") (some "10") (some "2")
    (by decide)).trans (by decide)

/-! ### DDL synthesizer (`build_target_sql`, src/app/parser.py lines 359-384) -/

/-- One row of the Target Fields table (the dicts built at
src/app/parser.py lines 100-109). -/
structure TargetRow where
  targetName : Cell
  database : Cell
  column : Cell
  datatype : Cell
  precision : Cell
  scale : Cell
  keyType : Cell
  nullable : Cell
deriving DecidableEq

/-- The metadata record produced by the Normalizer
(src/app/parser.py lines 214-219). -/
structure Meta where
  target_name : String
  mapping_name : Cell
  workflow_name : Cell
  source_headers : List Cell
deriving DecidableEq

/-- Python `sep.join(list)` for guaranteed-string elements. -/
def joinStrings (sep : String) : List String → String
  | [] => ""
  | [x] => x
  | x :: rest => x ++ sep ++ joinStrings sep rest

/-- Python `sep.join(cells)` where a `None` element raises `TypeError`
(modelled as `none`). -/
def pyJoinCells (sep : String) : List Cell → Option String
  | [] => some ""
  | [c] => c
  | c :: rest =>
    match c, pyJoinCells sep rest with
    | some x, some y => some (x ++ sep ++ y)
    | _, _ => none

/-- The column line built for one target row
(src/app/parser.py lines 369-372): two-space indent, column name, mapped
dialect type, and a NOT NULL clause exactly when the Nullable attribute
uppercases to the sentinel `NOTNULL`. -/
def columnLine (target_db : Cell) (r : TargetRow) : String :=
  "  " ++ pyStr r.column ++ " " ++ map_type_for_db r.datatype r.precision r.scale target_db ++
    (if pyUpper (pyStr r.nullable) = "NOTNULL" then " NOT NULL" else "")

/-- The primary-key columns of the Target Fields table in table order
(src/app/parser.py lines 373-374). -/
def pkColumns (target_df : List TargetRow) : List Cell :=
  (target_df.filter (fun r => pyUpper (pyStr r.keyType) = "PRIMARY KEY")).map (fun r => r.column)

/-- Translation of `build_target_sql` (src/app/parser.py lines 359-384).
The result is `none` exactly when the Python code raises, which happens
only in the `", ".join(pk_cols)` calls when some primary-key row has a
`None` Column value. -/
def build_target_sql (meta : Meta) (target_df : List TargetRow) (target_db : Cell) : Option String :=
  let tname := pyOr (some meta.target_name) "TARGET_TABLE"
  if target_df = [] then some ("-- No target fields found in XML for table " ++ tname)
  else
    let cols := target_df.map (columnLine target_db)
    let pk_cols := pkColumns target_df
    let db := pyLower (pyOr target_db "oracle")
    let create := ["CREATE TABLE " ++ tname ++ " (", joinStrings ",\n" cols, ");"]
    if pk_cols = [] then some (joinStrings "\n" create)
    else
      match pyJoinCells ", " pk_cols with
      | none => none
      | some pkj =>
        if db ∈ ["postgres", "mysql", "sqlserver", "oracle", "snowflake"] then
          some (joinStrings "\n" (create ++
            ["ALTER TABLE " ++ tname ++ " ADD CONSTRAINT PK_" ++ tname ++
              " PRIMARY KEY (" ++ pkj ++ ");"]))
        else
          some (joinStrings "\n" (create ++ ["-- PRIMARY KEY (" ++ pkj ++ ")"]))

/-- Substring test over the character lists of two strings. -/
def strContains (hay needle : String) : Bool :=
  hay.data.tails.any (fun t => needle.data.isPrefixOf t)

/-- A concrete single-column primary-key target row used in counterexamples
and witnesses. -/
def pkRow : TargetRow :=
  ⟨none, none, some "C", some "VARCHAR", some "10", none, some "PRIMARY KEY", none⟩

/-- C6 counterexample: with the unrecognized dialect `db2` and one
primary-key column, `build_target_sql` appends the comment
`-- PRIMARY KEY (C)` — the script contains no named constraint statement
(no `CONSTRAINT` token at all), contradicting the claim that a named
primary-key constraint statement is appended for every dialect. -/
theorem c6_counterexample :
    build_target_sql ⟨"T", some "", some "", []⟩ [pkRow] (some "db2")
      = some "CREATE TABLE T (\n  C VARCHAR(255)\n);\n-- PRIMARY KEY (C)"
  ∧ strContains "CREATE TABLE T (\n  C VARCHAR(255)\n);\n-- PRIMARY KEY (C)" "CONSTRAINT" = false
  ∧ strContains "CREATE TABLE T (\n  C VARCHAR(255)\n);\n-- PRIMARY KEY (C)" "-- PRIMARY KEY (C)"
      = true :=
  ⟨by decide, by decide, by decide⟩

/-- C6 amended: the empty-table case returns the non-empty explanatory
comment naming the table (target name defaulted to `TARGET_TABLE` when
empty); otherwise one column line per row in table order with the NOT NULL
clause governed case-insensitively by the `NOTNULL` sentinel; when
primary-key rows exist (their Column values being present), the appended
final statement is the named `ALTER TABLE ... ADD CONSTRAINT` statement
listing exactly those columns in table order for the five recognized
dialects, and a `-- PRIMARY KEY (...)` comment line for any other
dialect. -/
theorem c6_amended (meta : Meta) (target_df : List TargetRow) (target_db : Cell) :
    (target_df = [] →
      build_target_sql meta target_df target_db
          = some ("-- No target fields found in XML for table " ++
              pyOr (some meta.target_name) "TARGET_TABLE")
        ∧ ∀ s, build_target_sql meta target_df target_db = some s → 0 < s.length)
  ∧ (¬(target_df = []) → pkColumns target_df = [] →
      build_target_sql meta target_df target_db
        = some (joinStrings "\n"
            ["CREATE TABLE " ++ pyOr (some meta.target_name) "TARGET_TABLE" ++ " (",
             joinStrings ",\n" (target_df.map (columnLine target_db)), ");"]))
  ∧ (∀ pkj, ¬(target_df = []) → ¬(pkColumns target_df = []) →
      pyJoinCells ", " (pkColumns target_df) = some pkj →
      build_target_sql meta target_df target_db
        = some (joinStrings "\n"
            ["CREATE TABLE " ++ pyOr (some meta.target_name) "TARGET_TABLE" ++ " (",
             joinStrings ",\n" (target_df.map (columnLine target_db)), ");",
             if pyLower (pyOr target_db "oracle")
                 ∈ ["postgres", "mysql", "sqlserver", "oracle", "snowflake"] then
               "ALTER TABLE " ++ pyOr (some meta.target_name) "TARGET_TABLE" ++
                 " ADD CONSTRAINT PK_" ++ pyOr (some meta.target_name) "TARGET_TABLE" ++
                 " PRIMARY KEY (" ++ pkj ++ ");"
             else "-- PRIMARY KEY (" ++ pkj ++ ")"]))
  ∧ (∀ r : TargetRow, columnLine target_db r
      = "  " ++ pyStr r.column ++ " " ++ map_type_for_db r.datatype r.precision r.scale target_db
          ++ (if pyUpper (pyStr r.nullable) = "NOTNULL" then " NOT NULL" else "")) := by
  refine ⟨?_, ?_, ?_, ?_⟩
  · intro hemp
    subst hemp
    refine ⟨rfl, ?_⟩
    intro s hs
    simp [build_target_sql] at hs
    subst hs
    apply length_pos_of_ne_empty
    apply append_ne_empty
    decide
  · intro hne hpk
    simp [build_target_sql, hne, hpk]
  · intro pkj hne hpk hj
    simp only [build_target_sql, if_neg hne, if_neg hpk, hj]
    split <;> simp
  · intro r
    rfl

/-- Closed-input witness for `c6_amended`. -/
theorem c6_amended_witness :
    build_target_sql ⟨"", some "", some "", []⟩ [] (some "oracle")
        = some "-- No target fields found in XML for table TARGET_TABLE"
  ∧ build_target_sql ⟨"T", some "", some "", []⟩ [pkRow] none
      = some (joinStrings "\n"
          ["CREATE TABLE T (", joinStrings ",\n" ([pkRow].map (columnLine none)), ");",
           "ALTER TABLE T ADD CONSTRAINT PK_T PRIMARY KEY (C);"]) :=
  ⟨((c6_amended ⟨"", some "", some "", []⟩ [] (some "oracle")).1 rfl).1,
    by
      have h := (c6_amended ⟨"T", some "", some "", []⟩ [pkRow] none).2.2.1 "C"
        (by decide) (by decide) (by decide)
      simpa using h⟩

/-! ### Hex color parsing (`hex_to_rgb_tuple`, src/app/parser.py lines 479-489) -/

/-- Whitespace predicate used by Python `str.strip()` (ASCII fragment). -/
def isPySpace (c : Char) : Bool := c.isWhitespace

/-- Python `s.strip()`: drop whitespace from both ends. -/
def pyStripWs (s : String) : String :=
  String.mk (((s.data.dropWhile isPySpace).reverse.dropWhile isPySpace).reverse)

/-- Python `s.lstrip("#")`: drop every leading `#`. -/
def pyLstripHashes (s : String) : String :=
  String.mk (s.data.dropWhile (fun x => x = '#'))

/-- The value of one hexadecimal digit, if the character is one. -/
def hexVal? (c : Char) : Option Nat :=
  if c.isDigit then some (c.toNat - '0'.toNat)
  else if 'a' ≤ c ∧ c ≤ 'f' then some (c.toNat - 'a'.toNat + 10)
  else if 'A' ≤ c ∧ c ≤ 'F' then some (c.toNat - 'A'.toNat + 10)
  else none

/-- Continuation of `int(s, 16)` digit parsing: a single underscore is
permitted between two hex digits, nowhere else. -/
def parseHexGo (acc : Nat) : List Char → Option Nat
  | [] => some acc
  | c :: cs =>
    if c = '_' then
      match cs with
      | [] => none
      | c2 :: cs2 =>
        match hexVal? c2 with
        | some v => parseHexGo (acc * 16 + v) cs2
        | none => none
    else
      match hexVal? c with
      | some v => parseHexGo (acc * 16 + v) cs
      | none => none

/-- Nonempty hex digit sequence (with legal underscores) to its value. -/
def parseHexSeq : List Char → Option Nat
  | [] => none
  | c :: cs =>
    match hexVal? c with
    | some v => parseHexGo v cs
    | none => none

/-- Python `int(s, 16)` on ASCII input without a `0x` prefix (a prefix
cannot occur in the two-character slices `hex_to_rgb_tuple` parses):
surrounding whitespace, an optional sign, then hex digits; `none` models
`ValueError`. -/
def pyIntHex (s : String) : Option Int :=
  let cs := ((s.data.dropWhile isPySpace).reverse.dropWhile isPySpace).reverse
  match cs with
  | [] => none
  | c :: rest =>
    if c = '+' then (parseHexSeq rest).map (fun n => (n : Int))
    else if c = '-' then (parseHexSeq rest).map (fun n => -(n : Int))
    else (parseHexSeq (c :: rest)).map (fun n => (n : Int))

/-- The candidate color string after `strip`, `lstrip("#")` and the
3-digit doubling expansion (src/app/parser.py lines 480-482). -/
def hexCandidate (hex_color : String) : String :=
  let h1 := pyLstripHashes (pyStripWs hex_color)
  if h1.length = 3 then String.mk (h1.data.flatMap (fun c => [c, c])) else h1

/-- The fixed brand fallback triple `(138/255, 30/255, 2/255)`
(src/app/parser.py line 485). -/
def hexFallback : ℚ × ℚ × ℚ := (138/255, 30/255, 2/255)

/-- Translation of `hex_to_rgb_tuple` (src/app/parser.py lines 479-489).
Floats are modelled exactly as rationals (each channel is an integer
divided by 255); `none` models the `ValueError` that `int(_, 16)` raises
on a six-character candidate with a non-hex slice. -/
def hex_to_rgb_tuple (hex_color : String) : Option (ℚ × ℚ × ℚ) :=
  let h2 := hexCandidate hex_color
  if ¬(h2.length = 6) then some hexFallback
  else
    match pyIntHex (String.mk (h2.data.take 2)) with
    | none => none
    | some r =>
      match pyIntHex (String.mk ((h2.data.drop 2).take 2)) with
      | none => none
      | some g =>
        match pyIntHex (String.mk ((h2.data.drop 4).take 2)) with
        | none => none
        | some b => some ((r : ℚ) / 255, (g : ℚ) / 255, (b : ℚ) / 255)

theorem hexVal_not_space {c : Char} {v : Nat} (h : hexVal? c = some v) : isPySpace c = false := by
  by_contra hsp
  have hw : c.isWhitespace = true := by
    simpa [isPySpace] using hsp
  have hc : ((c = ' ' ∨ c = '\t') ∨ c = '\r') ∨ c = '\n' := by
    simpa [Char.isWhitespace] using hw
  rcases hc with ((h1 | h1) | h1) | h1 <;> subst h1
  · rw [show hexVal? ' ' = none from rfl] at h; cases h
  · rw [show hexVal? '\t' = none from rfl] at h; cases h
  · rw [show hexVal? '\r' = none from rfl] at h; cases h
  · rw [show hexVal? '\n' = none from rfl] at h; cases h

theorem hexVal_ne_of_val {c : Char} {v : Nat} (d : Char) (hd : hexVal? d = none)
    (h : hexVal? c = some v) : ¬(c = d) := by
  intro he
  subst he
  rw [hd] at h
  cases h

/-- Value of `int(_, 16)` on a two-hex-digit string. -/
theorem pyIntHex_two {a b : Char} {va vb : Nat}
    (ha : hexVal? a = some va) (hb : hexVal? b = some vb) :
    pyIntHex (String.mk [a, b]) = some ((16 * va + vb : Nat) : Int) := by
  have hsa := hexVal_not_space ha
  have hsb := hexVal_not_space hb
  have hpa : ¬(a = '+') := hexVal_ne_of_val '+' rfl ha
  have hma : ¬(a = '-') := hexVal_ne_of_val '-' rfl ha
  simp only [pyIntHex, List.dropWhile, hsa, hsb, List.reverse_cons, List.reverse_nil,
    List.nil_append, List.cons_append]
  simp only [if_neg hpa, if_neg hma, parseHexSeq, ha, parseHexGo, hb]
  have hub : ¬(b = '_') := hexVal_ne_of_val '_' rfl hb
  simp [hub, hb, Nat.mul_comm]

/-- C9 counterexample: `hex_to_rgb_tuple("zzzzzz")` raises `ValueError`
(modelled as `none`): a six-character candidate with non-hex characters
does not yield the fallback triple, contradicting the never-raises claim. -/
theorem c9_counterexample : hex_to_rgb_tuple "zzzzzz" = none := by decide

/-- C9 amended: a candidate (after stripping and 3-digit expansion) whose
length is not 6 yields the fixed fallback triple `(138/255, 30/255,
2/255)`; a candidate of six hex digits is parsed into its three channel
values each divided by 255; a 3-character candidate is expanded by
doubling each character before parsing.  A six-character candidate with a
non-hex slice raises instead (see the counterexample). -/
theorem c9_amended :
    hexFallback = (138 / 255, 30 / 255, 2 / 255)
  ∧ (∀ s : String, ¬((hexCandidate s).length = 6) →
      hex_to_rgb_tuple s = some hexFallback)
  ∧ (∀ (s : String) (c1 c2 c3 c4 c5 c6 : Char) (v1 v2 v3 v4 v5 v6 : Nat),
      (hexCandidate s).data = [c1, c2, c3, c4, c5, c6] →
      hexVal? c1 = some v1 → hexVal? c2 = some v2 → hexVal? c3 = some v3 →
      hexVal? c4 = some v4 → hexVal? c5 = some v5 → hexVal? c6 = some v6 →
      hex_to_rgb_tuple s
        = some (((16 * v1 + v2 : Nat) : ℚ) / 255, ((16 * v3 + v4 : Nat) : ℚ) / 255,
            ((16 * v5 + v6 : Nat) : ℚ) / 255))
  ∧ (∀ (s : String) (c1 c2 c3 : Char),
      (pyLstripHashes (pyStripWs s)).data = [c1, c2, c3] →
      (hexCandidate s).data = [c1, c1, c2, c2, c3, c3]) := by
  refine ⟨rfl, ?_, ?_, ?_⟩
  · intro s h
    simp only [hex_to_rgb_tuple]
    rw [if_pos h]
  · intro s c1 c2 c3 c4 c5 c6 v1 v2 v3 v4 v5 v6 hdata h1 h2 h3 h4 h5 h6
    have hlen : (hexCandidate s).length = 6 := by
      show (hexCandidate s).data.length = 6
      rw [hdata]
      rfl
    simp only [hex_to_rgb_tuple]
    rw [if_neg (not_not_intro hlen), hdata]
    have e1 : ([c1, c2, c3, c4, c5, c6].take 2) = [c1, c2] := rfl
    have e2 : (([c1, c2, c3, c4, c5, c6].drop 2).take 2) = [c3, c4] := rfl
    have e3 : (([c1, c2, c3, c4, c5, c6].drop 4).take 2) = [c5, c6] := rfl
    rw [e1, e2, e3, pyIntHex_two h1 h2, pyIntHex_two h3 h4, pyIntHex_two h5 h6]
    push_cast
    rfl
  · intro s c1 c2 c3 hdata
    have hlen : (pyLstripHashes (pyStripWs s)).length = 3 := by
      show (pyLstripHashes (pyStripWs s)).data.length = 3
      rw [hdata]
      rfl
    simp only [hexCandidate]
    rw [if_pos hlen, hdata]
    rfl

/-- Closed-input witness for `c9_amended`: a malformed length yields the
fallback, and a six-digit red parses to `(255/255, 0, 0)`. -/
theorem c9_amended_witness :
    hex_to_rgb_tuple "grue" = some hexFallback
  ∧ hex_to_rgb_tuple "#ff0000"
      = some (((255 : Nat) : ℚ) / 255, ((0 : Nat) : ℚ) / 255, ((0 : Nat) : ℚ) / 255) := by
  constructor
  · exact c9_amended.2.1 "grue" (by decide)
  · have h := c9_amended.2.2.1 "#ff0000" 'f' 'f' '0' '0' '0' '0' 15 15 0 0 0 0
      (by decide) (by decide) (by decide) (by decide) (by decide) (by decide) (by decide)
    simpa using h

/-! ### Expression pattern classifier
(`detect_transformation_logic`, src/app/parser.py lines 391-472) -/

/-- A generic dataframe row: association list from column name to cell
(both sides cells, since pandas column labels may themselves be `None`,
as happens for Session Attributes built from unnamed attributes). -/
abbrev Row := List (Cell × Cell)

/-- A dataframe: list of rows. -/
abbrev Df := List Row

/-- The dict of named tables returned by the Normalizer. -/
abbrev Tabs := List (String × Df)

/-- Python `row.get(k)` on a dataframe row: `None` when the column is
absent, otherwise the (possibly `None`) cell value. -/
def rget (row : Row) (k : String) : Cell :=
  match row.lookup (some k) with
  | some v => v
  | none => none

/-- Word characters for the `\b` assertion (ASCII fragment of `\w`). -/
def wordChar (c : Char) : Bool := c.isAlphanum || c = '_'

/-- Character class `[A-Z_]` (under IGNORECASE on uppercased input). -/
def azUnd (c : Char) : Bool := decide (('A' ≤ c ∧ c ≤ 'Z') ∨ c = '_')

/-- The regular-expression fragment used by the classifier bank: literal
strings, the word-boundary assertion, `\s*`, one-or-more of a character
class, sequencing and alternation (an optional group `(?:X)?` is
`alt X eps`). -/
inductive Rx where
  | eps
  | str (s : String)
  | wb
  | wsStar
  | plusCls (p : Char → Bool)
  | seq (a b : Rx)
  | alt (a b : Rx)

/-- All ways of consuming one or more leading characters of class `p`:
each result carries the last consumed character and the remaining input. -/
def clsRuns (p : Char → Bool) : List Char → List (Option Char × List Char)
  | [] => []
  | c :: cs => if p c then (some c, cs) :: clsRuns p cs else []

/-- Match states of `r` at the current position: `prev` is the character
immediately before the position (`none` at the start of the string); each
result is the state after the match. -/
def matchRx : Rx → Option Char → List Char → List (Option Char × List Char)
  | .eps, prev, rest => [(prev, rest)]
  | .str s, prev, rest =>
    if s.data.isPrefixOf rest then
      [(match s.data.getLast? with
        | some c => some c
        | none => prev, rest.drop s.data.length)]
    else []
  | .wb, prev, rest =>
    let lw := match prev with
      | none => false
      | some c => wordChar c
    let rw := match rest with
      | [] => false
      | c :: _ => wordChar c
    if lw = rw then [] else [(prev, rest)]
  | .wsStar, prev, rest => (prev, rest) :: clsRuns isPySpace rest
  | .plusCls p, _, rest => clsRuns p rest
  | .seq a b, prev, rest => (matchRx a prev rest).flatMap (fun st => matchRx b st.1 st.2)
  | .alt a b, prev, rest => matchRx a prev rest ++ matchRx b prev rest

/-- Does `r` match starting at some position of the character list? -/
def searchAux (r : Rx) : Option Char → List Char → Bool
  | prev, [] => !(matchRx r prev []).isEmpty
  | prev, c :: cs => !(matchRx r prev (c :: cs)).isEmpty || searchAux r (some c) cs

/-- Model of `re.search(rgx, expr, flags=re.IGNORECASE)`: the IGNORECASE
flag is modelled by uppercasing the input, since every literal in the bank
is already uppercase (ASCII). -/
def rxSearch (r : Rx) (s : String) : Bool := searchAux r none (pyUpper s).data

/-- A bank entry of the common shape `\bNAME\s*\(`. -/
def fcall (name : String) : Rx := .seq .wb (.seq (.str name) (.seq .wsStar (.str "(")))

/-- The ordered classifier bank (src/app/parser.py lines 401-456), one
entry per `(label, pattern)` pair, patterns transcribed into `Rx`. -/
def patterns : List (String × Rx) := [
  ("Trim", fcall "TRIM"),
  ("Left Trim", fcall "LTRIM"),
  ("Right Trim", fcall "RTRIM"),
  ("Uppercase", fcall "UPPER"),
  ("Lowercase", fcall "LOWER"),
  ("Concat", .alt (.str "||") (fcall "CONCAT")),
  ("Substring", .seq .wb (.seq (.str "SUBSTR") (.seq (.alt (.str "ING") .eps)
    (.seq .wsStar (.str "("))))),
  ("Replace", fcall "REPLACE"),
  ("Length", .alt (fcall "LENGTH") (fcall "LEN")),
  ("Position", .alt (fcall "CHARINDEX") (.alt (fcall "POSITION") (fcall "INSTR"))),
  ("Left Pad", fcall "LPAD"),
  ("Right Pad", fcall "RPAD"),
  ("Round", fcall "ROUND"),
  ("Ceiling", .seq .wb (.seq (.str "CEIL") (.seq (.alt (.str "ING") .eps)
    (.seq .wsStar (.str "("))))),
  ("Floor", fcall "FLOOR"),
  ("Absolute", fcall "ABS"),
  ("Modulo", fcall "MOD"),
  ("Power", fcall "POWER"),
  ("Square Root", fcall "SQRT"),
  ("Now", .alt (fcall "GETDATE") (.alt (fcall "NOW")
    (.seq .wb (.seq (.str "CURRENT_TIMESTAMP") .wb)))),
  ("Date Add", .alt (fcall "DATEADD") (fcall "DATE_ADD")),
  ("Date Diff", .alt (fcall "DATEDIFF") (fcall "DATE_DIFF")),
  ("Extract/Datepart", .alt (fcall "EXTRACT") (fcall "DATEPART")),
  ("Format/To Char", .alt (fcall "FORMAT") (fcall "TO_CHAR")),
  ("CASE", .seq .wb (.seq (.str "CASE") .wb)),
  ("Coalesce", fcall "COALESCE"),
  ("NullIf", fcall "NULLIF"),
  ("IsNull/NVL", .alt (fcall "ISNULL") (fcall "NVL")),
  ("Cast", fcall "CAST"),
  ("Convert", fcall "CONVERT"),
  ("Aggregate SUM", fcall "SUM"),
  ("Aggregate AVG", fcall "AVG"),
  ("Aggregate COUNT", fcall "COUNT"),
  ("Aggregate MIN", fcall "MIN"),
  ("Aggregate MAX", fcall "MAX"),
  ("Row Number", fcall "ROW_NUMBER"),
  ("Rank", fcall "RANK"),
  ("Dense Rank", fcall "DENSE_RANK"),
  ("Lag", fcall "LAG"),
  ("Lead", fcall "LEAD"),
  ("Regex", .seq .wb (.seq (.str "REGEXP_") (.seq (.plusCls azUnd) (.seq .wsStar (.str "(")))))]

/-- The stripped expression of one Transformations row
(src/app/parser.py line 459). -/
def exprOf (row : Row) : String := pyStripWs (pyOr (rget row "Expression") "")

/-- Display truncation (src/app/parser.py line 467): unchanged up to 160
characters, else the first 157 followed by an ellipsis marker. -/
def truncateExpr (expr : String) : String :=
  if expr.length ≤ 160 then expr else String.mk (expr.data.take 157) ++ "..."

/-- The single bullet produced for one row, if any
(src/app/parser.py lines 458-469): skip an empty stripped expression,
otherwise the first bank rule whose pattern matches yields
`• label: tname.pport → shown`. -/
def rowFinding (row : Row) : Option String :=
  let expr := exprOf row
  if expr = "" then none
  else
    let tname := pyOr (rget row "Transformation") "Transformation"
    let pport := pyOr (rget row "Port Name") "Port"
    match patterns.find? (fun pr => rxSearch pr.2 expr) with
    | some pr => some ("• " ++ pr.1 ++ ": " ++ tname ++ "." ++ pport ++ " → " ++ truncateExpr expr)
    | none => none

/-- The row loop of `detect_transformation_logic`
(src/app/parser.py lines 458-471): after each row the accumulated lines
are compared against the cap (`if len(lines) >= max_lines: break`). -/
def detectGo (maxLines : Nat) : List Row → List String → List String
  | [], lines => lines
  | row :: rest, lines =>
    let lines2 := match rowFinding row with
      | some l => lines ++ [l]
      | none => lines
    if maxLines ≤ lines2.length then lines2 else detectGo maxLines rest lines2

/-- Translation of `detect_transformation_logic`
(src/app/parser.py lines 391-472); the caller's default for `max_lines`
is 40.  A missing or empty Transformations table yields no findings. -/
def detect_transformation_logic (tabs : Tabs) (maxLines : Nat) : List String :=
  match tabs.lookup "Transformations" with
  | none => []
  | some [] => []
  | some rows => detectGo maxLines rows []

/-- A tabs dict holding just a Transformations table. -/
def mkTabs (df : Df) : Tabs := [("Transformations", df)]

theorem detectGo_eq (N : Nat) (rows : List Row) :
    ∀ acc : List String, acc.length < N →
    detectGo N rows acc = acc ++ (rows.filterMap rowFinding).take (N - acc.length) := by
  induction rows with
  | nil =>
    intro acc h
    simp [detectGo]
  | cons row rest ih =>
    intro acc h
    simp only [detectGo]
    cases hrf : rowFinding row with
    | none =>
      simp only [List.filterMap_cons, hrf]
      rw [if_neg (by omega)]
      exact ih acc h
    | some l =>
      simp only [List.filterMap_cons, hrf]
      by_cases hstop : N ≤ (acc ++ [l]).length
      · rw [if_pos hstop]
        have hlen : (acc ++ [l]).length = acc.length + 1 := by simp
        have hone : N - acc.length = 1 := by omega
        rw [hone]
        simp
      · rw [if_neg hstop]
        have h2 : (acc ++ [l]).length < N := by omega
        rw [ih _ h2]
        have hlen : (acc ++ [l]).length = acc.length + 1 := by simp
        rw [hlen]
        have hk : N - acc.length = (N - (acc.length + 1)) + 1 := by omega
        rw [hk, List.take_succ_cons, List.append_assoc]
        rfl

/-- With a positive cap, the classifier output is the first `N` per-row
findings in table order. -/
theorem detect_take (df : Df) (N : Nat) (hN : 1 ≤ N) :
    detect_transformation_logic (mkTabs df) N = (df.filterMap rowFinding).take N := by
  cases df with
  | nil => simp [detect_transformation_logic, mkTabs, List.lookup]
  | cons r rest =>
    show detectGo N (r :: rest) [] = _
    rw [detectGo_eq N (r :: rest) [] (by simpa using hN)]
    simp

/-- A row contributes a finding only if its stripped expression is
non-empty. -/
def hasExpr (row : Row) : Bool := pyTruthyStr (exprOf row)

theorem rowFinding_hasExpr {row : Row} (h : ¬(rowFinding row = none)) : hasExpr row = true := by
  by_contra hne
  apply h
  have hemp : exprOf row = "" := by
    have := hne
    simp [hasExpr, pyTruthyStr] at this
    exact this
  simp [rowFinding, hemp]

theorem length_filterMap_le_countP {α β : Type} (f : α → Option β) (p : α → Bool)
    (h : ∀ a, ¬(f a = none) → p a = true) : ∀ l : List α,
    (l.filterMap f).length ≤ l.countP p := by
  intro l
  induction l with
  | nil => simp
  | cons a t ih =>
    rw [List.countP_cons]
    cases hfa : f a with
    | none =>
      rw [List.filterMap_cons_none hfa]
      exact le_trans ih (Nat.le_add_right _ _)
    | some b =>
      rw [List.filterMap_cons_some hfa]
      have hpa : p a = true := h a (by simp [hfa])
      rw [hpa]
      simpa using Nat.succ_le_succ ih

/-- On `find?` success the list splits at the first satisfying element. -/
theorem find?_first {α : Type} {p : α → Bool} : ∀ {l : List α} {a : α},
    l.find? p = some a →
    ∃ l1 l2, l = l1 ++ a :: l2 ∧ p a = true ∧ ∀ x ∈ l1, p x = false := by
  intro l
  induction l with
  | nil => intro a h; cases h
  | cons b t ih =>
    intro a h
    by_cases hb : p b = true
    · rw [List.find?_cons_of_pos _ hb] at h
      injection h with h
      subst h
      exact ⟨[], t, rfl, hb, by simp⟩
    · rw [List.find?_cons_of_neg _ (by simpa using hb)] at h
      obtain ⟨l1, l2, hsp, hpa, hall⟩ := ih h
      refine ⟨b :: l1, l2, by rw [hsp]; rfl, hpa, ?_⟩
      intro x hx
      rcases List.mem_cons.mp hx with hx | hx
      · subst hx
        simpa using hb
      · exact hall x hx

/-- A one-row Transformations table whose expression is `TRIM(X)`. -/
def trimRow : Row := [(some "Transformation", some "T"), (some "Port Name", some "P"),
  (some "Expression", some "TRIM(X)")]

/-- C7 counterexample: the emitted finding text carries a leading bullet
`• `, so it is not equal to the claimed
`<label>: <transformation>.<port> → <expression>` form. -/
theorem c7_counterexample :
    detect_transformation_logic (mkTabs [trimRow]) 40 = ["• Trim: T.P → TRIM(X)"]
  ∧ ¬(detect_transformation_logic (mkTabs [trimRow]) 40 = ["Trim: T.P → TRIM(X)"]) :=
  ⟨by decide, by decide⟩

/-- C7 amended: with a positive cap, the output is the per-row findings in
table order (capped); a finding exists only via the first bank rule whose
pattern matches the stripped expression case-insensitively, every earlier
rule failing; its text is `• label: tname.pport → shown` with `shown`
truncated at the 160-character threshold to 157 characters plus an
ellipsis; a row matching no rule yields no finding. -/
theorem c7_amended (df : Df) (N : Nat) (hN : 1 ≤ N) :
    detect_transformation_logic (mkTabs df) N = (df.filterMap rowFinding).take N
  ∧ (∀ (row : Row) (s : String), rowFinding row = some s →
      ∃ pre lbl rx post, patterns = pre ++ (lbl, rx) :: post
        ∧ rxSearch rx (exprOf row) = true
        ∧ (∀ pr ∈ pre, rxSearch pr.2 (exprOf row) = false)
        ∧ s = "• " ++ lbl ++ ": " ++ pyOr (rget row "Transformation") "Transformation"
            ++ "." ++ pyOr (rget row "Port Name") "Port" ++ " → " ++ truncateExpr (exprOf row))
  ∧ (∀ row : Row, (∀ pr ∈ patterns, rxSearch pr.2 (exprOf row) = false) →
      rowFinding row = none)
  ∧ (∀ e : String, truncateExpr e
      = if e.length ≤ 160 then e else String.mk (e.data.take 157) ++ "...") := by
  refine ⟨detect_take df N hN, ?_, ?_, fun e => rfl⟩
  · intro row s h
    simp only [rowFinding] at h
    by_cases hemp : exprOf row = ""
    · simp [hemp] at h
    · rw [if_neg hemp] at h
      cases hf : patterns.find? (fun pr => rxSearch pr.2 (exprOf row)) with
      | none => rw [hf] at h; cases h
      | some pr =>
        rw [hf] at h
        injection h with h
        obtain ⟨l1, l2, hsp, hpa, hpre⟩ := find?_first hf
        refine ⟨l1, pr.1, pr.2, l2, by simpa using hsp, by simpa using hpa, ?_, h.symm⟩
        intro x hx
        simpa using hpre x hx
  · intro row hall
    simp only [rowFinding]
    by_cases hemp : exprOf row = ""
    · simp [hemp]
    · rw [if_neg hemp]
      rw [List.find?_eq_none.mpr (fun x hx => by simp [hall x hx])]

/-- Closed-input witness for `c7_amended`. -/
theorem c7_amended_witness :
    detect_transformation_logic (mkTabs [trimRow]) 40
      = ([trimRow].filterMap rowFinding).take 40 :=
  (c7_amended [trimRow] 40 (by decide)).1

/-- C8 counterexample: with `max_lines = 0` the first row is still
examined (the cap test runs only after each row), so one finding is
returned — more than the cap. -/
theorem c8_counterexample :
    detect_transformation_logic (mkTabs [trimRow]) 0 = ["• Trim: T.P → TRIM(X)"]
  ∧ 0 < (detect_transformation_logic (mkTabs [trimRow]) 0).length :=
  ⟨by decide, by decide⟩

/-- C8 amended: for every positive cap `N` the classifier returns at most
`N` findings, at most one per row with a non-empty stripped expression,
and once the cap is reached the rows beyond it contribute nothing (the
output over any extension of the table is unchanged). -/
theorem c8_amended (df df2 : Df) (N : Nat) (hN : 1 ≤ N) :
    (detect_transformation_logic (mkTabs df) N).length ≤ N
  ∧ (detect_transformation_logic (mkTabs df) N).length ≤ df.countP hasExpr
  ∧ ((detect_transformation_logic (mkTabs df) N).length = N →
      detect_transformation_logic (mkTabs (df ++ df2)) N
        = detect_transformation_logic (mkTabs df) N) := by
  have hd := detect_take df N hN
  have hd2 := detect_take (df ++ df2) N hN
  refine ⟨?_, ?_, ?_⟩
  · rw [hd]
    simp [List.length_take]
  · rw [hd]
    refine le_trans ?_ (length_filterMap_le_countP rowFinding hasExpr
      (fun row hr => rowFinding_hasExpr hr) df)
    simp [List.length_take]
  · intro hfull
    rw [hd] at hfull ⊢
    rw [hd2, List.filterMap_append]
    have hlen : N ≤ (df.filterMap rowFinding).length := by
      rw [List.length_take] at hfull
      omega
    rw [List.take_append_of_le_length hlen]

/-- Closed-input witness for `c8_amended`. -/
theorem c8_amended_witness :
    (detect_transformation_logic (mkTabs [trimRow]) 1).length ≤ 1
  ∧ ((detect_transformation_logic (mkTabs [trimRow]) 1).length = 1 →
      detect_transformation_logic (mkTabs ([trimRow] ++ [trimRow])) 1
        = detect_transformation_logic (mkTabs [trimRow]) 1) :=
  ⟨(c8_amended [trimRow] [trimRow] 1 (by decide)).1,
   (c8_amended [trimRow] [trimRow] 1 (by decide)).2.2⟩

/-! ### Connector ordering (src/app/parser.py lines 161-190) -/

/-- The fixed type-to-rank table (src/app/parser.py lines 162-175). -/
def typeOrder : List (String × Nat) := [
  ("Source Definition", 0),
  ("Expression", 10), ("Aggregator", 11), ("Joiner", 12), ("Lookup Procedure", 13),
  ("Filter", 14), ("Router", 15), ("Update Strategy", 16), ("Sorter", 17), ("Sequence", 18),
  ("Target Definition", 99)]

/-- `type_order.get(t, 50)`: the rank of a node type, defaulting to the
mid-range 50 for unrecognized types. -/
def typeRank (t : String) : Nat := (typeOrder.lookup t).getD 50

/-- The `_rank` function (src/app/parser.py lines 177-180):
`from_rank * 100 + to_rank` over the `or ""`-defaulted type cells. -/
def connRank (row : Row) : Nat :=
  typeRank (pyOr (rget row "From Type") "") * 100 + typeRank (pyOr (rget row "To Type") "")

/-- Three-way comparison from a linear order. -/
def cmpO {α : Type} [LinearOrder α] (x y : α) : Ordering :=
  if x < y then .lt else if x = y then .eq else .gt

/-- Cell comparison with `None` sorted last, as pandas places missing
values with `na_position="last"`. -/
def cellCmp (a b : Cell) : Ordering :=
  match a, b with
  | none, none => .eq
  | none, some _ => .gt
  | some _, none => .lt
  | some x, some y => cmpO x y

/-- Lexicographic composition of comparators over a product. -/
def cmpProd {α β : Type} (ca : α → α → Ordering) (cb : β → β → Ordering)
    (x y : α × β) : Ordering :=
  (ca x.1 y.1).then (cb x.2 y.2)

/-- A comparator that reflects equality, is antisymmetric under `swap`
and has transitive strict comparison. -/
structure LawfulCmp {α : Type} (cmp : α → α → Ordering) : Prop where
  eq_iff : ∀ {a b : α}, cmp a b = .eq ↔ a = b
  swap : ∀ a b : α, (cmp a b).swap = cmp b a
  lt_trans : ∀ {a b c : α}, cmp a b = .lt → cmp b c = .lt → cmp a c = .lt

theorem cmpO_eq_iff {α : Type} [LinearOrder α] {x y : α} : cmpO x y = Ordering.eq ↔ x = y := by
  unfold cmpO
  split
  · constructor
    · intro h; cases h
    · intro h
      subst h
      simp_all
  · split
    · simp_all
    · constructor
      · intro h; cases h
      · intro h; simp_all

theorem cmpO_lt_iff {α : Type} [LinearOrder α] {x y : α} : cmpO x y = Ordering.lt ↔ x < y := by
  unfold cmpO
  split
  · simp_all
  · split <;> simp_all

theorem cmpO_swap {α : Type} [LinearOrder α] (x y : α) : (cmpO x y).swap = cmpO y x := by
  unfold cmpO
  rcases lt_trichotomy x y with h | h | h
  · rw [if_pos h, if_neg (lt_asymm h), if_neg (by intro he; subst he; exact lt_irrefl _ h)]
    rfl
  · subst h
    rw [if_neg (lt_irrefl x), if_pos rfl]
    rfl
  · rw [if_neg (lt_asymm h), if_neg (by intro he; subst he; exact lt_irrefl _ h), if_pos h]
    rfl

theorem lawful_cmpO {α : Type} [LinearOrder α] : LawfulCmp (fun x y : α => cmpO x y) := by
  refine ⟨?_, ?_, ?_⟩
  · intro a b
    exact cmpO_eq_iff
  · intro a b
    exact cmpO_swap a b
  · intro a b c h1 h2
    rw [cmpO_lt_iff] at h1 h2 ⊢
    exact lt_trans h1 h2

theorem lawful_cellCmp : LawfulCmp cellCmp := by
  refine ⟨?_, ?_, ?_⟩
  · intro a b
    cases a <;> cases b <;> simp [cellCmp, cmpO_eq_iff]
  · intro a b
    cases a <;> cases b
    · rfl
    · rfl
    · rfl
    · exact cmpO_swap _ _
  · intro a b c h1 h2
    cases a <;> cases b <;> cases c <;> simp_all [cellCmp, cmpO_lt_iff]
    exact lt_trans h1 h2

theorem then_eq_eq {o p : Ordering} : o.then p = Ordering.eq ↔ o = Ordering.eq ∧ p = Ordering.eq := by
  cases o <;> simp [Ordering.then]

theorem then_swap (o p : Ordering) : (o.then p).swap = Ordering.then o.swap p.swap := by
  cases o <;> rfl

theorem then_lt {o p : Ordering} :
    o.then p = Ordering.lt ↔ o = Ordering.lt ∨ (o = Ordering.eq ∧ p = Ordering.lt) := by
  cases o <;> simp [Ordering.then]

theorem lawful_cmpProd {α β : Type} {ca : α → α → Ordering} {cb : β → β → Ordering}
    (ha : LawfulCmp ca) (hb : LawfulCmp cb) : LawfulCmp (cmpProd ca cb) := by
  refine ⟨?_, ?_, ?_⟩
  · intro a b
    rw [cmpProd, then_eq_eq, ha.eq_iff, hb.eq_iff, Prod.ext_iff]
  · intro a b
    rw [cmpProd, then_swap, ha.swap, hb.swap]
    rfl
  · intro a b c h1 h2
    rw [cmpProd, then_lt] at h1 h2 ⊢
    rcases h1 with h1 | h1
    · rcases h2 with h2 | h2
      · exact Or.inl (ha.lt_trans h1 h2)
      · rw [ha.eq_iff] at h2
        rw [← h2.1] at *
        exact Or.inl h1
    · rw [ha.eq_iff] at h1
      rcases h2 with h2 | h2
      · rw [h1.1] at *
        exact Or.inl h2
      · rw [ha.eq_iff] at h2
        right
        constructor
        · rw [ha.eq_iff]
          exact h1.1.trans h2.1
        · exact hb.lt_trans h1.2 h2.2

/-- The full pandas sort key of one connector row: `__rank` then the six
tie-break columns (src/app/parser.py lines 182-190). -/
def connKey (row : Row) :
    Nat × (Cell × (Cell × (Cell × (Cell × (Cell × Cell))))) :=
  (connRank row, (rget row "From Type", (rget row "From Instance", (rget row "To Type",
    (rget row "To Instance", (rget row "From Field", rget row "To Field"))))))

/-- Lexicographic comparator on full sort keys. -/
def keyCmp :
    (Nat × (Cell × (Cell × (Cell × (Cell × (Cell × Cell)))))) →
    (Nat × (Cell × (Cell × (Cell × (Cell × (Cell × Cell)))))) → Ordering :=
  cmpProd (fun x y => cmpO x y) (cmpProd cellCmp (cmpProd cellCmp (cmpProd cellCmp
    (cmpProd cellCmp (cmpProd cellCmp cellCmp)))))

theorem lawful_keyCmp : LawfulCmp keyCmp :=
  lawful_cmpProd lawful_cmpO (lawful_cmpProd lawful_cellCmp (lawful_cmpProd lawful_cellCmp
    (lawful_cmpProd lawful_cellCmp (lawful_cmpProd lawful_cellCmp
      (lawful_cmpProd lawful_cellCmp lawful_cellCmp)))))

/-- Row comparison by full sort key. -/
def connCmp (a b : Row) : Ordering := keyCmp (connKey a) (connKey b)

/-- Stable-sort order on index-tagged rows: strictly smaller key first,
original position deciding ties — the standard model of a stable sort. -/
def connLeB (p q : Nat × Row) : Bool :=
  match connCmp p.2 q.2 with
  | .lt => true
  | .eq => Nat.ble p.1 q.1
  | .gt => false

def connLe (p q : Nat × Row) : Prop := connLeB p q = true

instance : DecidableRel connLe := fun p q => instDecidableEqBool (connLeB p q) true

theorem connCmp_swap (a b : Row) : (connCmp a b).swap = connCmp b a := lawful_keyCmp.swap _ _

theorem connCmp_lt_trans {a b c : Row} (h1 : connCmp a b = Ordering.lt)
    (h2 : connCmp b c = Ordering.lt) : connCmp a c = Ordering.lt :=
  lawful_keyCmp.lt_trans h1 h2

theorem connCmp_eq_iff {a b : Row} : connCmp a b = Ordering.eq ↔ connKey a = connKey b :=
  lawful_keyCmp.eq_iff

instance : IsTotal (Nat × Row) connLe := by
  constructor
  intro p q
  unfold connLe connLeB
  cases hc : connCmp p.2 q.2 with
  | lt => exact Or.inl rfl
  | gt =>
    right
    have : connCmp q.2 p.2 = Ordering.lt := by
      rw [← connCmp_swap p.2 q.2, hc]
      rfl
    rw [this]
  | eq =>
    have hqp : connCmp q.2 p.2 = Ordering.eq := by
      rw [← connCmp_swap p.2 q.2, hc]
      rfl
    rw [hqp]
    rcases Nat.le_total p.1 q.1 with h | h
    · exact Or.inl (by simpa [Nat.ble_eq] using h)
    · exact Or.inr (by simpa [Nat.ble_eq] using h)

instance : IsTrans (Nat × Row) connLe := by
  constructor
  intro p q r h1 h2
  unfold connLe connLeB at h1 h2 ⊢
  cases hpq : connCmp p.2 q.2 with
  | gt => rw [hpq] at h1; cases h1
  | lt =>
    cases hqr : connCmp q.2 r.2 with
    | gt => rw [hqr] at h2; cases h2
    | lt =>
      rw [connCmp_lt_trans hpq hqr]
    | eq =>
      have hk : connKey q.2 = connKey r.2 := connCmp_eq_iff.mp hqr
      have hpr : connCmp p.2 r.2 = Ordering.lt := by
        show keyCmp (connKey p.2) (connKey r.2) = Ordering.lt
        rw [← hk]
        exact hpq
      rw [hpr]
  | eq =>
    have hk : connKey p.2 = connKey q.2 := connCmp_eq_iff.mp hpq
    rw [hpq] at h1
    cases hqr : connCmp q.2 r.2 with
    | gt => rw [hqr] at h2; cases h2
    | lt =>
      have hpr : connCmp p.2 r.2 = Ordering.lt := by
        show keyCmp (connKey p.2) (connKey r.2) = Ordering.lt
        rw [hk]
        exact hqr
      rw [hpr]
    | eq =>
      rw [hqr] at h2
      have hpr : connCmp p.2 r.2 = Ordering.eq := by
        show keyCmp (connKey p.2) (connKey r.2) = Ordering.eq
        rw [hk]
        exact hqr
      rw [hpr]
      have ha := Nat.le_of_ble_eq_true h1
      have hb := Nat.le_of_ble_eq_true h2
      simpa [Nat.ble_eq] using le_trans ha hb

/-- The index-tagged stable sort of the raw connector rows. -/
def connSortKeyed (l : List Row) : List (Nat × Row) := (l.enum).insertionSort connLe

/-- The reordered connector rows: pandas `sort_values(kind="stable")` over
the key columns, modelled as the (unique) ordering by (full key, original
position). -/
def sortConnectors (l : List Row) : List Row := (connSortKeyed l).map Prod.snd

/-- Stability: in the sorted, index-tagged list, rows with fully identical
sort keys appear in strictly increasing original positions. -/
theorem sortConnectors_stable (l : List Row) :
    (connSortKeyed l).Pairwise (fun p q => connKey p.2 = connKey q.2 → p.1 < q.1) := by
  have hs : (connSortKeyed l).Pairwise connLe := List.sorted_insertionSort connLe (l.enum)
  have hperm : List.Perm (connSortKeyed l) l.enum := List.perm_insertionSort connLe (l.enum)
  have hnodup0 : (l.enum.map Prod.fst).Nodup := by
    rw [List.enum_map_fst]
    exact List.nodup_range _
  have hnodup1 : ((connSortKeyed l).map Prod.fst).Nodup :=
    ((hperm.map Prod.fst).nodup_iff).mpr hnodup0
  have hpair : (connSortKeyed l).Pairwise (fun p q => ¬(p.1 = q.1)) := by
    have hk := (List.pairwise_map).mp hnodup1
    simpa using hk
  have hcomb := hs.and hpair
  refine hcomb.imp ?_
  intro p q hpq hkey
  obtain ⟨hle, hne⟩ := hpq
  unfold connLe connLeB at hle
  have hceq : connCmp p.2 q.2 = Ordering.eq := connCmp_eq_iff.mpr hkey
  rw [hceq] at hle
  have hb := Nat.le_of_ble_eq_true hle
  omega

/-! ### Document normalizer (`parse_xml_bytes`, src/app/parser.py lines 38-220) -/

/-- An XML element: tag, attribute dict, children in document order.
Byte input that is empty or that `ET.fromstring` rejects is modelled as
`none : Option XmlElem` upstream of this type. -/
inductive XmlElem where
  | mk (tag : String) (attrs : List (String × String)) (children : List XmlElem)

def XmlElem.tag : XmlElem → String
  | .mk t _ _ => t

def XmlElem.attrs : XmlElem → List (String × String)
  | .mk _ a _ => a

def XmlElem.children : XmlElem → List XmlElem
  | .mk _ _ c => c

/-- `elem.get(name)`: attribute lookup, `None` when absent. -/
def XmlElem.get (e : XmlElem) (k : String) : Cell := e.attrs.lookup k

mutual

/-- All proper descendants of an element in document order (the node set
`.//tag` ranges over before tag filtering). -/
def elemDesc : XmlElem → List XmlElem
  | .mk _ _ cs => listDesc cs

def listDesc : List XmlElem → List XmlElem
  | [] => []
  | c :: cs => (c :: elemDesc c) ++ listDesc cs

end

/-- The `findall` utility (src/app/parser.py lines 14-15):
`elem.findall(".//tag")` with a `None` guard. -/
def findall (elem : Option XmlElem) (tag : String) : List XmlElem :=
  match elem with
  | some e => (elemDesc e).filter (fun d => d.tag == tag)
  | none => []

/-- The `findfirst` utility (src/app/parser.py lines 17-18). -/
def findfirst (elem : Option XmlElem) (tag : String) : Option XmlElem :=
  (findall elem tag).head?

/-- `_empty_tabs()` (src/app/parser.py lines 20-31): the fixed dict of
nine named empty tables. -/
def emptyTabs : Tabs := [
  ("Overview", []), ("Source Fields", []), ("Target Fields", []), ("Field Lineage", []),
  ("Transformations", []), ("Connectors", []), ("Reader Settings", []), ("Writer Settings", []),
  ("Session Attributes", [])]

/-- The sentinel metadata record (src/app/parser.py lines 44-49). -/
def defaultMeta : Meta := ⟨"TARGET_TABLE", some "", some "", []⟩

/-- Python dict assignment `d[k] = v`: replace in place, else append. -/
def dictSet (d : Tabs) (k : String) (v : Df) : Tabs :=
  match d with
  | [] => [(k, v)]
  | (k2, v2) :: rest => if k2 = k then (k2, v) :: rest else (k2, v2) :: dictSet rest k v

/-- Python dict assignment for the session-attribute dict, whose keys may
be `None`. -/
def setAttr (d : List (Cell × Cell)) (k v : Cell) : List (Cell × Cell) :=
  match d with
  | [] => [(k, v)]
  | (k2, v2) :: rest => if k2 = k then (k2, v) :: rest else (k2, v2) :: setAttr rest k v

/-- First-occurrence deduplication, as `Series.unique` on object dtype. -/
def uniqueCells (l : List Cell) : List Cell :=
  l.foldl (fun acc x => if x ∈ acc then acc else acc ++ [x]) []

def folderOf (root : XmlElem) : Option XmlElem := findfirst (some root) "FOLDER"

def mappingOf (root : XmlElem) : Option XmlElem := findfirst (some root) "MAPPING"

def workflowOf (root : XmlElem) : Option XmlElem := findfirst (some root) "WORKFLOW"

def sessionOf (root : XmlElem) : Option XmlElem :=
  match workflowOf root with
  | some w => findfirst (some w) "SESSION"
  | none => none

/-- The source-field rows (src/app/parser.py lines 75-89). -/
def sourceRows (folder : Option XmlElem) : Df :=
  (findall folder "SOURCE").flatMap (fun s =>
    (findall (some s) "SOURCEFIELD").map (fun sf =>
      [(some "Source Name", s.get "NAME"),
       (some "Source Type", s.get "DATABASETYPE"),
       (some "Field Name", sf.get "NAME"),
       (some "Datatype", sf.get "DATATYPE"),
       (some "Length/Precision", sf.get "PRECISION"),
       (some "Scale", sf.get "SCALE"),
       (some "Nullable", sf.get "NULLABLE")]))

/-- The target-field rows (src/app/parser.py lines 93-111). -/
def targetRowsOf (folder : Option XmlElem) : Df :=
  (findall folder "TARGET").flatMap (fun t =>
    (findall (some t) "TARGETFIELD").map (fun tf =>
      [(some "Target Name", t.get "NAME"),
       (some "Database", t.get "DATABASETYPE"),
       (some "Column", tf.get "NAME"),
       (some "Datatype", tf.get "DATATYPE"),
       (some "Precision", tf.get "PRECISION"),
       (some "Scale", tf.get "SCALE"),
       (some "Key Type", tf.get "KEYTYPE"),
       (some "Nullable", tf.get "NULLABLE")]))

/-- The target elements under the folder, in document order. -/
def targetsOf (root : XmlElem) : List XmlElem := findall (folderOf root) "TARGET"

/-- The canonical target name (src/app/parser.py line 95): the NAME
attribute of the first target element, or the literal `TARGET_TABLE`
when no target exists. -/
def targetNameOf (root : XmlElem) : Cell :=
  match targetsOf root with
  | [] => some "TARGET_TABLE"
  | t :: _ => t.get "NAME"

/-- The transformation rows (src/app/parser.py lines 114-145): the ports
of each transformation, then its notable table attributes. -/
def transRows (mapping : Option XmlElem) : Df :=
  match mapping with
  | none => []
  | some m =>
    (findall (some m) "TRANSFORMATION").flatMap (fun tr =>
      ((findall (some tr) "TRANSFORMFIELD").map (fun tf =>
        [(some "Transformation", tr.get "NAME"),
         (some "Type", tr.get "TYPE"),
         (some "Port Name", tf.get "NAME"),
         (some "Port Type", tf.get "PORTTYPE"),
         (some "Datatype", tf.get "DATATYPE"),
         (some "Precision", tf.get "PRECISION"),
         (some "Scale", tf.get "SCALE"),
         (some "Default", tf.get "DEFAULTVALUE"),
         (some "Expression", some (pyOr (tf.get "EXPRESSION") ""))]))
      ++ (((findall (some tr) "TABLEATTRIBUTE").filter (fun ta =>
            decide (ta.get "NAME" = some "Lookup Sql Override"
              ∨ ta.get "NAME" = some "Lookup condition"
              ∨ ta.get "NAME" = some "Lookup table name"))).map (fun ta =>
        [(some "Transformation", tr.get "NAME"),
         (some "Type", tr.get "TYPE"),
         (some "Port Name", ta.get "NAME"),
         (some "Port Type", some "Attribute"),
         (some "Datatype", some ""),
         (some "Precision", some ""),
         (some "Scale", some ""),
         (some "Default", some ""),
         (some "Expression", ta.get "VALUE")])))

/-- The raw connector rows in document order
(src/app/parser.py lines 148-159). -/
def connRows (mapping : Option XmlElem) : Df :=
  match mapping with
  | none => []
  | some m =>
    (findall (some m) "CONNECTOR").map (fun c =>
      [(some "From Instance", c.get "FROMINSTANCE"),
       (some "From Type", c.get "FROMINSTANCETYPE"),
       (some "From Field", c.get "FROMFIELD"),
       (some "To Instance", c.get "TOINSTANCE"),
       (some "To Type", c.get "TOINSTANCETYPE"),
       (some "To Field", c.get "TOFIELD")])

def rawConnOf (root : XmlElem) : Df := connRows (mappingOf root)

/-- The Connectors table: sorted unless empty
(src/app/parser.py lines 161-192). -/
def connTabOf (root : XmlElem) : Df :=
  if rawConnOf root = [] then rawConnOf root else sortConnectors (rawConnOf root)

/-- The Field Lineage table (src/app/parser.py lines 195-204): one record
per reordered connector whose To Type prints as `Target Definition`. -/
def lineageOf (root : XmlElem) : Df :=
  ((connTabOf root).filter (fun row => pyStr (rget row "To Type") == "Target Definition")).map
    (fun row =>
      [(some "Target Table", targetNameOf root),
       (some "Target Column", rget row "To Field"),
       (some "Comes From Instance", rget row "From Instance"),
       (some "Comes From Field", rget row "From Field")])

/-- The session-attribute dict (src/app/parser.py lines 207-210). -/
def sessionAttrsOf (root : XmlElem) : Row :=
  match sessionOf root with
  | none => []
  | some s => (findall (some s) "ATTRIBUTE").foldl
      (fun d attr => setAttr d (attr.get "NAME") (attr.get "VALUE")) []

/-- The Overview key/value pairs (src/app/parser.py lines 65-71). -/
def overviewPairs (root : XmlElem) : List (String × Cell) :=
  [("Repository", match findfirst (some root) "REPOSITORY" with
      | some r => r.get "NAME"
      | none => some ""),
   ("Folder", match folderOf root with
      | some f => f.get "NAME"
      | none => some ""),
   ("Mapping Name", match mappingOf root with
      | some m => m.get "NAME"
      | none => some ""),
   ("Workflow Name", match workflowOf root with
      | some w => w.get "NAME"
      | none => some ""),
   ("Session Name", match sessionOf root with
      | some s => s.get "NAME"
      | none => some "")]

/-- Translation of `parse_xml_bytes` (src/app/parser.py lines 38-220).
`none` input stands for empty bytes or bytes `ET.fromstring` rejects; in
both cases the source returns the initial tables and sentinel metadata,
so the embedded function is total — the never-raises contract. -/
def parse_xml_bytes (input : Option XmlElem) : Tabs × Meta :=
  match input with
  | none => (emptyTabs, defaultMeta)
  | some root =>
    let overviewDf : Df :=
      (overviewPairs root).map (fun kv => [(some "Item", some kv.1), (some "Value", kv.2)])
    let srcDf := sourceRows (folderOf root)
    let tgtDf := targetRowsOf (folderOf root)
    let transDf := transRows (mappingOf root)
    let sessAttrs := sessionAttrsOf root
    let tabs :=
      dictSet (dictSet (dictSet (dictSet (dictSet (dictSet (dictSet emptyTabs
        "Overview" overviewDf)
        "Source Fields" srcDf)
        "Target Fields" tgtDf)
        "Transformations" transDf)
        "Connectors" (connTabOf root))
        "Field Lineage" (lineageOf root))
        "Session Attributes" (if sessAttrs = [] then [] else [sessAttrs])
    let meta : Meta :=
      { target_name := pyOr (targetNameOf root) "TARGET_TABLE",
        mapping_name := match mappingOf root with
          | some m => m.get "NAME"
          | none => some "",
        workflow_name := match workflowOf root with
          | some w => w.get "NAME"
          | none => some "",
        source_headers :=
          if srcDf = [] then [] else uniqueCells (srcDf.map (fun r => rget r "Field Name")) }
    (tabs, meta)

theorem lookup_cons (k2 k3 : String) (v3 : Df) (rest : Tabs) :
    List.lookup k2 ((k3, v3) :: rest) = if k2 = k3 then some v3 else List.lookup k2 rest := by
  by_cases h : k2 = k3
  · subst h
    simp [List.lookup]
  · simp only [List.lookup, beq_eq_false_iff_ne.mpr h, if_neg h]

theorem lookup_dictSet (d : Tabs) (k k2 : String) (v : Df) :
    (dictSet d k v).lookup k2 = if k2 = k then some v else d.lookup k2 := by
  induction d with
  | nil =>
    show List.lookup k2 [(k, v)] = _
    rw [lookup_cons]
  | cons p rest ih =>
    obtain ⟨k3, v3⟩ := p
    simp only [dictSet]
    by_cases h3 : k3 = k
    · subst h3
      rw [if_pos rfl, lookup_cons, lookup_cons]
      by_cases h2 : k2 = k3
      · rw [if_pos h2, if_pos h2]
      · rw [if_neg h2, if_neg h2, if_neg h2]
    · rw [if_neg h3, lookup_cons, lookup_cons]
      by_cases h2 : k2 = k3
      · subst h2
        rw [if_pos rfl, if_neg h3, if_pos rfl]
      · rw [if_neg h2, ih, if_neg h2]

theorem connTabOf_eq (root : XmlElem) : connTabOf root = sortConnectors (rawConnOf root) := by
  unfold connTabOf
  split
  · next h =>
    rw [h]
    rfl
  · rfl

/-- C1: the Normalizer is total (malformed or empty byte input is the
`none` case of the embedding and returns normally); for every input the
returned dict contains all seven claimed tables, and the `none` case
returns exactly the empty tables with the sentinel metadata
`target_name = TARGET_TABLE`, empty strings, empty header list. -/
theorem c1_normalizer_total (input : Option XmlElem) :
    ((parse_xml_bytes input).1.lookup "Overview").isSome = true
  ∧ ((parse_xml_bytes input).1.lookup "Source Fields").isSome = true
  ∧ ((parse_xml_bytes input).1.lookup "Target Fields").isSome = true
  ∧ ((parse_xml_bytes input).1.lookup "Field Lineage").isSome = true
  ∧ ((parse_xml_bytes input).1.lookup "Transformations").isSome = true
  ∧ ((parse_xml_bytes input).1.lookup "Connectors").isSome = true
  ∧ ((parse_xml_bytes input).1.lookup "Session Attributes").isSome = true
  ∧ parse_xml_bytes none = (emptyTabs, defaultMeta)
  ∧ defaultMeta.target_name = "TARGET_TABLE"
  ∧ defaultMeta.mapping_name = some ""
  ∧ defaultMeta.workflow_name = some ""
  ∧ defaultMeta.source_headers = [] := by
  cases input with
  | none => exact ⟨rfl, rfl, rfl, rfl, rfl, rfl, rfl, rfl, rfl, rfl, rfl, rfl⟩
  | some root =>
    refine ⟨?_, ?_, ?_, ?_, ?_, ?_, ?_, rfl, rfl, rfl, rfl, rfl⟩ <;>
      simp [parse_xml_bytes, lookup_dictSet, lookup_cons, emptyTabs]

/-- C2: the Field Lineage table is exactly one record per reordered
connector whose To Type is `Target Definition`, taken in the order of the
reordered Connector table, carrying the canonical target name (the NAME
of the first target element in document order, or `TARGET_TABLE` when no
target exists), the To Field as Target Column, and From Instance/From
Field as the immediate upstream origin. -/
theorem c2_lineage (root : XmlElem) :
    (parse_xml_bytes (some root)).1.lookup "Field Lineage" = some (lineageOf root)
  ∧ lineageOf root = ((connTabOf root).filter
        (fun row => pyStr (rget row "To Type") == "Target Definition")).map
      (fun row =>
        [(some "Target Table", targetNameOf root),
         (some "Target Column", rget row "To Field"),
         (some "Comes From Instance", rget row "From Instance"),
         (some "Comes From Field", rget row "From Field")])
  ∧ (∀ (t : XmlElem) (ts : List XmlElem), targetsOf root = t :: ts →
      targetNameOf root = t.get "NAME")
  ∧ (targetsOf root = [] → targetNameOf root = some "TARGET_TABLE") := by
  refine ⟨?_, rfl, ?_, ?_⟩
  · simp [parse_xml_bytes, lookup_dictSet]
  · intro t ts h
    simp [targetNameOf, h]
  · intro h
    simp [targetNameOf, h]

/-- C3: the Connectors table is the stable sort of the raw connector rows
by the key `from_rank * 100 + to_rank` with the fixed six-column
tie-break (sort modelled as the unique ordering by full key then original
position); rows with fully identical keys keep their original relative
order; `Source Definition` ranks lowest (0), `Target Definition` highest
(99), every table rank is at most 99, and an unrecognized type gets the
mid-range default 50, strictly between them; re-running the ordering on
the same input yields the same result. -/
theorem c3_connector_order (root : XmlElem) (l : List Row) :
    (parse_xml_bytes (some root)).1.lookup "Connectors"
      = some (sortConnectors (rawConnOf root))
  ∧ sortConnectors l = ((l.enum).insertionSort connLe).map Prod.snd
  ∧ (connSortKeyed l).Pairwise (fun p q => connKey p.2 = connKey q.2 → p.1 < q.1)
  ∧ (∀ row : Row, connRank row
      = typeRank (pyOr (rget row "From Type") "") * 100
        + typeRank (pyOr (rget row "To Type") ""))
  ∧ typeRank "Source Definition" = 0
  ∧ typeRank "Target Definition" = 99
  ∧ (∀ pr ∈ typeOrder, pr.2 ≤ 99)
  ∧ (∀ t : String, typeOrder.lookup t = none →
      typeRank t = 50
      ∧ typeRank "Source Definition" < typeRank t
      ∧ typeRank t < typeRank "Target Definition")
  ∧ sortConnectors l = sortConnectors l := by
  refine ⟨?_, rfl, sortConnectors_stable l, fun row => rfl, rfl, rfl, ?_, ?_, rfl⟩
  · simp [parse_xml_bytes, lookup_dictSet, connTabOf_eq]
  · intro pr hpr
    fin_cases hpr <;> decide
  · intro t h
    have ht : typeRank t = 50 := by simp [typeRank, h]
    refine ⟨ht, ?_, ?_⟩ <;>
      · rw [ht]
        decide

/-- A small sample document: one source field, one primary-key target
column, one source-to-target connector. -/
def sampleTarget : XmlElem :=
  .mk "TARGET" [("NAME", "T"), ("DATABASETYPE", "Oracle")] [
    .mk "TARGETFIELD" [("NAME", "CUST_ID"), ("DATATYPE", "VARCHAR"), ("PRECISION", "10"),
      ("KEYTYPE", "PRIMARY KEY"), ("NULLABLE", "NOTNULL")] []]

def sampleDoc : XmlElem :=
  .mk "POWERMART" [] [
    .mk "REPOSITORY" [("NAME", "Repo")] [
      .mk "FOLDER" [("NAME", "F")] [
        .mk "SOURCE" [("NAME", "S"), ("DATABASETYPE", "Oracle")] [
          .mk "SOURCEFIELD" [("NAME", "CUST_ID"), ("DATATYPE", "VARCHAR"),
            ("PRECISION", "10")] []],
        sampleTarget,
        .mk "MAPPING" [("NAME", "M")] [
          .mk "CONNECTOR" [("FROMINSTANCE", "S"), ("FROMINSTANCETYPE", "Source Definition"),
            ("FROMFIELD", "CUST_ID"), ("TOINSTANCE", "T"),
            ("TOINSTANCETYPE", "Target Definition"), ("TOFIELD", "CUST_ID")] []]]]]

/-- Closed-input witness for `c2_lineage`. -/
theorem c2_lineage_witness :
    (parse_xml_bytes (some sampleDoc)).1.lookup "Field Lineage" = some (lineageOf sampleDoc)
  ∧ targetNameOf sampleDoc = some "T" := by
  constructor
  · exact (c2_lineage sampleDoc).1
  · have h := (c2_lineage sampleDoc).2.2.1 sampleTarget [] (by rfl)
    rw [h]
    rfl

/-- Closed-input witness for `c3_connector_order`. -/
theorem c3_connector_order_witness :
    (parse_xml_bytes (some sampleDoc)).1.lookup "Connectors"
      = some (sortConnectors (rawConnOf sampleDoc))
  ∧ typeRank "Custom Widget" = 50
  ∧ ("Expression", (10 : Nat)).2 ≤ 99 := by
  refine ⟨(c3_connector_order sampleDoc []).1, ?_, ?_⟩
  · exact ((c3_connector_order sampleDoc []).2.2.2.2.2.2.2.1 "Custom Widget" (by rfl)).1
  · exact (c3_connector_order sampleDoc []).2.2.2.2.2.2.1 ("Expression", (10 : Nat)) (by decide)

end Infa